import Mathlib

/-!
Shallow embedding of the core of the password-manager PWA
(`src/unnamed/part_000` = the `App` object, `src/unnamed/part_001` =
`CryptoUtils`, `src/js/storage.js` = `Storage`, `src/js/password-generator.js`
second half = `GitHubSync`), together with theorems settling the frozen
claims about it.

Modelling conventions:
* The external CryptoJS primitives (PBKDF2, AES-CBC) are not part of the
  repository; they are modelled symbolically as ideal primitives: PBKDF2 is a
  collision-free function of the (password, salt) pair, and the AES-CBC
  ciphertext of a serialized record is an opaque package of the plaintext,
  the key and the iv, which decrypts back exactly when both the key and the
  iv match and otherwise yields bytes on which the UTF-8/JSON decoding step
  of `CryptoUtils.decrypt` throws.  Randomness (salts, ivs) is passed in as
  an explicit argument.
* IndexedDB is modelled functionally: the `passwords` object store is a list
  of records plus the autoincrement key-generator counter, the `settings`
  store is an association list; each `Storage` method is a pure function on
  these.  `store.add` fails with a ConstraintError exactly when the explicit
  key already exists.
* JavaScript exceptions are modelled with `Except`; a loop that a thrown
  exception aborts returns the state reached so far together with the error,
  mirroring the fact that each IndexedDB call is its own committed
  transaction.
-/

namespace PwaSpec

/-- A decrypted secret record: the object literal built in `App.handleSave`
and `App.importData` (src/unnamed/part_000), with the five string fields
service / email / username / password / memo. -/
structure Record where
  service : String
  email : String
  username : String
  password : String
  memo : String
deriving DecidableEq, Repr

/-- Output of the external `CryptoJS.PBKDF2` primitive, modelled as an ideal
(collision-free) KDF: the value is the formal pair of the password and the
salt it was derived from. -/
structure HashV where
  password : String
  salt : String
deriving DecidableEq, Repr

/-- Symmetric encryption key derived by `CryptoUtils.deriveKey`
(src/unnamed/part_001); same ideal-KDF model as `HashV`, but a distinct type
because verifier hashes and encryption keys live at different trust
boundaries. -/
structure Key where
  password : String
  salt : String
deriving DecidableEq, Repr

/-- AES-CBC ciphertext as produced by the external `CryptoJS.AES.encrypt`.
Modelled as an ideal cipher: a ciphertext either is the encryption of a
record under a key and iv, or arbitrary junk bytes that decrypt to nothing
under any key. -/
inductive Ciphertext where
  | enc (payload : Record) (key : Key) (iv : String)
  | junk (tag : String)
deriving DecidableEq, Repr

/-- The per-record decryption failure of `CryptoUtils.decrypt`
(wrong key, malformed iv/ciphertext, bad padding, or bytes that do not
UTF-8/JSON-decode). -/
inductive DecryptError where
  | decryptionFailure
deriving DecidableEq, Repr

namespace CryptoUtils

/-- The external `CryptoJS.PBKDF2` call shared by `hashMasterPassword`,
`verifyMasterPassword` and `deriveKey` (src/unnamed/part_001, fixed
parameters: SHA-256, 100000 iterations, 256-bit output), as an ideal KDF. -/
def pbkdf2 (password salt : String) : HashV := ⟨password, salt⟩

/-- `CryptoUtils.hashMasterPassword` (src/unnamed/part_001 lines 62-78):
generates a random salt and PBKDF2-hashes the password with it, returning
both.  The random salt produced by `getRandomBytes` is passed in explicitly
(randomness as an input). -/
def hashMasterPassword (password : String) (saltB64 : String) : HashV × String :=
  (pbkdf2 password saltB64, saltB64)

/-- `CryptoUtils.verifyMasterPassword` (src/unnamed/part_001 lines 84-95):
recomputes the PBKDF2 hash with the stored salt and compares the whole
encoded hash for equality. -/
def verifyMasterPassword (password : String) (storedHash : HashV) (storedSalt : String) : Bool :=
  pbkdf2 password storedSalt == storedHash

/-- `CryptoUtils.deriveKey` (src/unnamed/part_001 lines 101-111): PBKDF2 with
the encryption salt, same fixed parameters. -/
def deriveKey (password salt : String) : Key := ⟨password, salt⟩

/-- The `{ciphertext, iv}` pair returned by `CryptoUtils.encrypt`. -/
structure Encrypted where
  ciphertext : Ciphertext
  iv : String
deriving DecidableEq, Repr

/-- `CryptoUtils.encrypt` (src/unnamed/part_001 lines 117-132): JSON-serializes
the record and AES-CBC-encrypts it under the key with a fresh random 16-byte
iv; the iv produced by `WordArray.random` is passed in explicitly. -/
def encrypt (data : Record) (key : Key) (iv : String) : Encrypted :=
  ⟨Ciphertext.enc data key iv, iv⟩

/-- `CryptoUtils.decrypt` (src/unnamed/part_001 lines 138-151): AES-CBC
decryption followed by UTF-8 decoding and `JSON.parse`.  In the ideal-cipher
model, decryption recovers the record exactly when the key and iv match the
ones used at encryption time; in every other case the garbled bytes make the
UTF-8/JSON decoding step throw, which we model as `DecryptError`. -/
def decrypt (ciphertext : Ciphertext) (iv : String) (key : Key) : Except DecryptError Record :=
  match ciphertext with
  | .enc payload k i => if k = key ∧ i = iv then .ok payload else .error .decryptionFailure
  | .junk _ => .error .decryptionFailure

end CryptoUtils

/-- A value held in the `settings` object store (masterHash is a PBKDF2 hash,
the salts and GitHub config are strings, and `GitHubSync.clearConfig` stores
null). -/
inductive SettingValue where
  | str (v : String)
  | hash (v : HashV)
  | null
deriving DecidableEq, Repr

/-- Turn an optional string (e.g. an in-memory GitHubSync field, which is
either a configured string or null) into the stored value. -/
def optVal : Option String → SettingValue
  | some s => .str s
  | none => .null

/-- What a row of the `passwords` object store holds besides its key:
either an encrypted `{ciphertext, iv}` pair (the normal case) or a raw
plaintext record (possible because `Storage.addPassword` stores whatever
object it is given). -/
inductive StoredPayload where
  | enc (ciphertext : Ciphertext) (iv : String)
  | plain (r : Record)
deriving DecidableEq, Repr

/-- A row of the `passwords` object store: keyPath `id`. -/
structure StoredRecord where
  id : Nat
  payload : StoredPayload
deriving DecidableEq, Repr

/-- The `passwords` object store: rows plus the autoincrement key-generator
counter (`autoIncrement: true` in `Storage.init`). -/
structure PasswordStore where
  records : List StoredRecord
  nextId : Nat
deriving DecidableEq, Repr

/-- The `settings` object store: association list keyed by the `key` field. -/
abbrev SettingsStore := List (String × SettingValue)

/-- The IndexedDB ConstraintError raised by `store.add` on a duplicate key. -/
inductive DBError where
  | constraintError
deriving DecidableEq, Repr

namespace Storage

/-- The list of keys present in the `passwords` store. -/
def storeIds (p : PasswordStore) : List Nat := p.records.map (·.id)

/-- `Storage.saveSetting` (src/js/storage.js lines 47-55): `store.put`
upserts by key. -/
def saveSetting (s : SettingsStore) (key : String) (value : SettingValue) : SettingsStore :=
  if s.any (fun kv => kv.1 == key) then
    s.map (fun kv => if kv.1 == key then (key, value) else kv)
  else
    s ++ [(key, value)]

/-- `Storage.getSetting` (src/js/storage.js lines 60-68). -/
def getSetting (s : SettingsStore) (key : String) : Option SettingValue :=
  (s.find? (fun kv => kv.1 == key)).map (·.2)

/-- `Storage.addPassword` (src/js/storage.js lines 74-82): `store.add`.
With an explicit key it fails with a ConstraintError when the key already
exists, and bumps the key generator past it on success; without one the
autoincrement generator assigns the next key.  Returns the new row's key
(`request.result`). -/
def addPassword (p : PasswordStore) (id? : Option Nat) (payload : StoredPayload) :
    Except DBError (PasswordStore × Nat) :=
  match id? with
  | some i =>
      if i ∈ storeIds p then .error .constraintError
      else .ok ({ records := p.records ++ [⟨i, payload⟩], nextId := max p.nextId (i + 1) }, i)
  | none =>
      .ok ({ records := p.records ++ [⟨p.nextId, payload⟩], nextId := p.nextId + 1 }, p.nextId)

/-- `Storage.deletePassword` (src/js/storage.js lines 100-108): `store.delete`
by key (idempotent: deleting an absent key succeeds). -/
def deletePassword (p : PasswordStore) (id : Nat) : PasswordStore :=
  { p with records := p.records.filter (fun r => r.id != id) }

/-- `Storage.getAllPasswords` (src/js/storage.js lines 113-121). -/
def getAllPasswords (p : PasswordStore) : List StoredRecord := p.records

/-- `Storage.clearAll` (src/js/storage.js lines 181-189): clears both object
stores in one transaction.  IndexedDB's `clear` does not reset the
autoincrement key generator. -/
def clearAll (p : PasswordStore) (_s : SettingsStore) : PasswordStore × SettingsStore :=
  ({ records := [], nextId := p.nextId }, [])

end Storage

/-- One element of a snapshot's `passwords` array as the import/pull paths
see it after `JSON.parse`: either an already-encrypted entry (detected by the
presence of both `ciphertext` and `iv`, with an optional explicit `id`) or a
plaintext entry (detected by a present `service` field; each missing string
field defaults to the empty string). -/
inductive ImportEntry where
  | encrypted (id? : Option Nat) (ciphertext : Ciphertext) (iv : String)
  | plain (service email username password memo : String)
deriving DecidableEq, Repr

/-- The parsed snapshot payload (export / import / sync file format):
`{version, exportDate, masterHash, masterSalt, encryptionSalt, passwords}`.
The three credential fields are optional because `JSON.stringify` drops them
from an export taken from a store that lacks them.  `exportDate` carries no
behavior and is omitted. -/
structure Snapshot where
  version : Nat
  masterHash : Option HashV
  masterSalt : Option String
  encryptionSalt : Option String
  passwords : List ImportEntry
deriving DecidableEq, Repr

/-- Adding one snapshot entry to the store exactly as received
(`Storage.addPassword(pw)` on the raw parsed object), as done by the loops in
`Storage.importData` and `App.handleSyncPull`. -/
def addEntryAsIs (p : PasswordStore) (e : ImportEntry) : Except DBError PasswordStore :=
  match e with
  | .encrypted id? ct iv => (Storage.addPassword p id? (.enc ct iv)).map (·.1)
  | .plain sv em un pw mo => (Storage.addPassword p none (.plain ⟨sv, em, un, pw, mo⟩)).map (·.1)

/-- The `for (const pw of data.passwords) await this.addPassword(pw)` loop of
`Storage.importData` (src/js/storage.js lines 171-173) and of
`App.handleSyncPull` (src/unnamed/part_000 lines 731-733).  A rejected add
throws, aborting the loop; the rows added before it stay committed (each add
is its own IndexedDB transaction). -/
def addAllEntries (p : PasswordStore) : List ImportEntry → PasswordStore × Except DBError Unit
  | [] => (p, .ok ())
  | e :: rest =>
      match addEntryAsIs p e with
      | .ok p2 => addAllEntries p2 rest
      | .error err => (p, .error err)

/-- The error taxonomy of the import/pull paths: unsupported snapshot
version, missing session key, or a database ConstraintError escaping the add
loop. -/
inductive ImportError where
  | unsupportedVersion
  | notLoggedIn
  | db (e : DBError)
deriving DecidableEq, Repr

namespace Storage

/-- `Storage.importData` (src/js/storage.js lines 158-176): reject any
version other than 1 before touching anything, then upsert the three
credential settings that are present and add every snapshot entry as-is. -/
def importData (p : PasswordStore) (s : SettingsStore) (snap : Snapshot) :
    PasswordStore × SettingsStore × Except ImportError Nat :=
  if snap.version ≠ 1 then (p, s, .error .unsupportedVersion)
  else
    let s1 := match snap.masterHash with
      | some h => saveSetting s "masterHash" (.hash h)
      | none => s
    let s2 := match snap.masterSalt with
      | some v => saveSetting s1 "masterSalt" (.str v)
      | none => s1
    let s3 := match snap.encryptionSalt with
      | some v => saveSetting s2 "encryptionSalt" (.str v)
      | none => s2
    match addAllEntries p snap.passwords with
    | (p2, .ok _) => (p2, s3, .ok snap.passwords.length)
    | (p2, .error e) => (p2, s3, .error (.db e))

end Storage

/-- Decrypting one stored row during `App.loadPasswords`: rows holding an
encrypted pair go through `CryptoUtils.decrypt`; a raw plaintext row has no
`ciphertext`/`iv` fields, so the decrypt call throws while decoding them. -/
def decryptStored (key : Key) (p : StoredPayload) : Except DecryptError Record :=
  match p with
  | .enc ct iv => CryptoUtils.decrypt ct iv key
  | .plain _ => .error .decryptionFailure

/-- Whether a stored row decrypts under the session key. -/
def decOk (key : Key) (r : StoredRecord) : Bool :=
  match decryptStored key r.payload with
  | .ok _ => true
  | .error _ => false

/-- In-memory `App` session state (src/unnamed/part_000 lines 5-12): the
derived encryption key, the encryption salt and the decrypted in-memory
list; an absent key is the LoggedOut state. -/
structure AppState where
  encryptionKey : Option Key
  encryptionSalt : Option String
  passwords : List (Nat × Record)
deriving DecidableEq, Repr

/-- In-memory `GitHubSync` configuration (token, REPO_OWNER, REPO_NAME;
src/js/password-generator.js lines 116-121), null until `init`/`saveConfig`
set them. -/
structure GHState where
  token : Option String
  repoOwner : Option String
  repoName : Option String
deriving DecidableEq, Repr

namespace GitHubSync

/-- `GitHubSync.saveConfig` (src/js/password-generator.js lines 136-143):
persist the three settings and mirror them in memory. -/
def saveConfig (s : SettingsStore) (token repoOwner repoName : Option String) :
    SettingsStore × GHState :=
  let s1 := Storage.saveSetting s "githubToken" (optVal token)
  let s2 := Storage.saveSetting s1 "githubRepoOwner" (optVal repoOwner)
  let s3 := Storage.saveSetting s2 "githubRepoName" (optVal repoName)
  (s3, ⟨token, repoOwner, repoName⟩)

end GitHubSync

namespace App

/-- The loop body of `App.loadPasswords` (src/unnamed/part_000 lines 175-183):
walk every stored row once, decrypting each independently; successes are
pushed onto the in-memory list (keeping the row's id), failures onto the
quarantine list of invalid ids.  A failure on one row does not stop the
walk. -/
def loadScan (key : Key) : List StoredRecord → List (Nat × Record) × List Nat
  | [] => ([], [])
  | r :: rest =>
      let acc := loadScan key rest
      match decryptStored key r.payload with
      | .ok d => ((r.id, d) :: acc.1, acc.2)
      | .error _ => (acc.1, r.id :: acc.2)

/-- Result of `App.loadPasswords`: the in-memory decrypted list
(`this.passwords`), the password store after the quarantine deletions, and
the quarantine count surfaced to the caller (the count shown by the warning
toast when it is positive). -/
structure LoadResult where
  passwords : List (Nat × Record)
  store : PasswordStore
  quarantined : Nat
deriving DecidableEq, Repr

/-- `App.loadPasswords` (src/unnamed/part_000 lines 169-200): read all rows,
decrypt each independently, keep the successes in memory, then delete every
row that failed to decrypt from the store and report how many were purged. -/
def loadPasswords (key : Key) (p : PasswordStore) : LoadResult :=
  let scanned := loadScan key (Storage.getAllPasswords p)
  let p2 := scanned.2.foldl Storage.deletePassword p
  ⟨scanned.1, p2, scanned.2.length⟩

/-- The import loop of `App.importData` (src/unnamed/part_000 lines 551-570):
entries carrying ciphertext+iv are stored as-is; plaintext entries are
normalized, encrypted under the session key with a fresh random iv (`ivSup`
supplies the iv drawn at each loop position) and stored.  A rejected add
throws, aborting the loop and keeping the rows already added. -/
def importLoop (key : Key) (ivSup : Nat → String) :
    List ImportEntry → Nat → PasswordStore → PasswordStore × Except DBError Unit
  | [], _, p => (p, .ok ())
  | e :: rest, idx, p =>
      let step : Except DBError PasswordStore :=
        match e with
        | .encrypted id? ct iv => (Storage.addPassword p id? (.enc ct iv)).map (·.1)
        | .plain sv em un pw mo =>
            let encd := CryptoUtils.encrypt ⟨sv, em, un, pw, mo⟩ key (ivSup idx)
            (Storage.addPassword p none (.enc encd.ciphertext encd.iv)).map (·.1)
      match step with
      | .ok p2 => importLoop key ivSup rest (idx + 1) p2
      | .error err => (p, .error err)

/-- `App.importData` (src/unnamed/part_000 lines 531-581): after parsing,
reject version ≠ 1, then require a session key, then run the import loop,
and finally re-run `loadPasswords` (which re-reads, decrypts and
quarantines).  Returns the new session state, the new password store and the
reported outcome (the imported-entry count, or the error the toast shows). -/
def importData (a : AppState) (p : PasswordStore) (snap : Snapshot) (ivSup : Nat → String) :
    AppState × PasswordStore × Except ImportError Nat :=
  if snap.version ≠ 1 then (a, p, .error .unsupportedVersion)
  else
    match a.encryptionKey with
    | none => (a, p, .error .notLoggedIn)
    | some key =>
        match importLoop key ivSup snap.passwords 0 p with
        | (p2, .ok _) =>
            let res := loadPasswords key p2
            ({ a with passwords := res.passwords }, res.store, .ok snap.passwords.length)
        | (p2, .error e) => (a, p2, .error (.db e))

end App

/-- The complete state the pull path touches: both object stores, the `App`
session and the in-memory `GitHubSync` config. -/
structure World where
  pstore : PasswordStore
  sstore : SettingsStore
  app : AppState
  gh : GHState
deriving DecidableEq, Repr

namespace App

/-- `App.handleSyncPull` (src/unnamed/part_000 lines 679-755) applied to an
already-fetched and parsed remote snapshot (`none` models the remote file
not existing, in which case nothing changes).  On a version-1 snapshot:
clear both stores, re-save the credential settings present in the snapshot,
write the old in-memory GitHub config back (it was just cleared), add every
snapshot entry as-is, and finally discard the session key and encryption
salt so the user must re-authenticate.  A ConstraintError in the add loop
aborts before the session fields are cleared. -/
def handleSyncPull (w : World) (result : Option Snapshot) : World × Except ImportError Unit :=
  match result with
  | none => (w, .ok ())
  | some data =>
      if data.version ≠ 1 then (w, .error .unsupportedVersion)
      else
        let cleared := Storage.clearAll w.pstore w.sstore
        let s1 := cleared.2
        let s2 := match data.masterHash with
          | some h => Storage.saveSetting s1 "masterHash" (.hash h)
          | none => s1
        let s3 := match data.masterSalt with
          | some v => Storage.saveSetting s2 "masterSalt" (.str v)
          | none => s2
        let s4 := match data.encryptionSalt with
          | some v => Storage.saveSetting s3 "encryptionSalt" (.str v)
          | none => s3
        let saved := GitHubSync.saveConfig s4 w.gh.token w.gh.repoOwner w.gh.repoName
        match addAllEntries cleared.1 data.passwords with
        | (p2, .ok _) =>
            ({ pstore := p2, sstore := saved.1,
               app := { encryptionKey := none, encryptionSalt := none,
                        passwords := w.app.passwords },
               gh := saved.2 }, .ok ())
        | (p2, .error e) =>
            ({ pstore := p2, sstore := saved.1, app := w.app, gh := saved.2 },
             .error (.db e))

end App

/-- A remote snapshot file with its content version token (the git blob SHA
returned by the GitHub Contents API, modelled as a counter). -/
structure RemoteFile where
  content : String
  sha : Nat
deriving DecidableEq, Repr

/-- The remote repository slot holding `pwa/data/passwords.json`. -/
abbrev Remote := Option RemoteFile

/-- Remote sync errors: missing configuration, or the remote rejecting a
write whose version token does not match its current state. -/
inductive SyncError where
  | notConfigured
  | conflict
deriving DecidableEq, Repr

namespace GitHubSync

/-- `GitHubSync.pull` (src/js/password-generator.js lines 182-214): requires
configuration; 404 (file never created) is the valid `none` result;
otherwise the decoded content together with its current version token
(`data.sha`). -/
def pull (gh : GHState) (remote : Remote) : Except SyncError (Option (String × Nat)) :=
  if gh.token.isNone || gh.repoOwner.isNone || gh.repoName.isNone then .error .notConfigured
  else
    match remote with
    | none => .ok none
    | some f => .ok (some (f.content, f.sha))

/-- Modelled from the spec: the remote store's `PUT` contract (spec section 6
and the GitHub Contents API it stands for) — the write succeeds only when
the provided version token matches the file's current token (or the file
does not exist and no token is provided); otherwise it is a conflict error.
The remote service itself is external, not code under src/. -/
def putContents (remote : Remote) (content : String) (sha? : Option Nat) :
    Except SyncError Remote :=
  match remote with
  | some f =>
      if sha? = some f.sha then .ok (some ⟨content, f.sha + 1⟩) else .error .conflict
  | none =>
      match sha? with
      | none => .ok (some ⟨content, 0⟩)
      | some _ => .error .conflict

/-- `GitHubSync.push` (src/js/password-generator.js lines 219-263): requires
configuration; takes no version token from its caller.  It calls `pull`
internally immediately before writing, extracts the token it just fetched
(none when the file does not exist or that pull threw), and PUTs the full
content with that token. -/
def push (gh : GHState) (remote : Remote) (content : String) : Except SyncError Remote :=
  if gh.token.isNone || gh.repoOwner.isNone || gh.repoName.isNone then .error .notConfigured
  else
    let sha? : Option Nat :=
      match pull gh remote with
      | .ok (some (_, s)) => some s
      | _ => none
    putContents remote content sha?

end GitHubSync

/-- Well-formedness invariant of the `passwords` store that IndexedDB itself
maintains: keys are unique and the autoincrement generator is past every
existing key. -/
def WFStore (p : PasswordStore) : Prop :=
  (Storage.storeIds p).Nodup ∧ ∀ r ∈ p.records, r.id < p.nextId

/-- How a successfully imported batch relates to the rows it appended: an
entry already carrying ciphertext+iv becomes a row with that very ciphertext
and iv, unchanged (and with its explicit id when it has one), while a
plaintext entry becomes a row holding an encryption of its normalized record
under the session key (with some fresh iv). -/
inductive ImportMatches (key : Key) : List ImportEntry → List StoredRecord → Prop
  | nil : ImportMatches key [] []
  | encSome (i : Nat) (ct : Ciphertext) (iv : String) (rest : List ImportEntry)
      (out : List StoredRecord) :
      ImportMatches key rest out →
      ImportMatches key (.encrypted (some i) ct iv :: rest) (⟨i, .enc ct iv⟩ :: out)
  | encNone (j : Nat) (ct : Ciphertext) (iv : String) (rest : List ImportEntry)
      (out : List StoredRecord) :
      ImportMatches key rest out →
      ImportMatches key (.encrypted none ct iv :: rest) (⟨j, .enc ct iv⟩ :: out)
  | plain (j : Nat) (sv em un pw mo iv0 : String) (rest : List ImportEntry)
      (out : List StoredRecord) :
      ImportMatches key rest out →
      ImportMatches key (.plain sv em un pw mo :: rest)
        (⟨j, .enc (.enc ⟨sv, em, un, pw, mo⟩ key iv0) iv0⟩ :: out)

/-! ## Concrete fixtures used by witnesses and counterexamples -/

/-- A session key derived from the spec's example passphrase. -/
def sampleKey : Key := ⟨"correcthorse123", "salt1"⟩

/-- The spec's example record. -/
def record1 : Record := ⟨"Example", "", "alice", "p@ss", ""⟩

/-- A second distinct record. -/
def record2 : Record := ⟨"Other", "e", "bob", "q", "m"⟩

/-- A store with two decryptable rows and one corrupt row between them. -/
def store3 : PasswordStore :=
  ⟨[⟨1, .enc (.enc record1 sampleKey "iv1") "iv1"⟩,
    ⟨2, .enc (.junk "corrupt") "iv2"⟩,
    ⟨3, .enc (.enc record2 sampleKey "iv3") "iv3"⟩], 4⟩

/-- A snapshot with an unsupported version. -/
def snapV2 : Snapshot := ⟨2, none, none, none, [.plain "S" "" "" "" ""]⟩

/-- A version-1 snapshot mixing one plaintext and one pre-encrypted entry. -/
def snapMix : Snapshot :=
  ⟨1, none, none, none,
   [.plain "Svc" "e" "u" "pw1" "m",
    .encrypted (some 7) (.enc record2 sampleKey "iv7") "iv7"]⟩

/-- A version-1 snapshot whose only entry already carries ciphertext+iv. -/
def snapEncOnly : Snapshot := ⟨1, none, none, none, [.encrypted none (.junk "z") "ivz"]⟩

/-- A store already holding a row with id 1. -/
def dupStore : PasswordStore := ⟨[⟨1, .enc (.junk "old") "ivx"⟩], 2⟩

/-- A version-1 snapshot whose second entry reuses the existing id 1. -/
def snapDup : Snapshot :=
  ⟨1, none, none, none,
   [.encrypted (some 2) (.enc record1 sampleKey "iv2") "iv2",
    .encrypted (some 1) (.enc record2 sampleKey "iv1") "iv1",
    .encrypted (some 3) (.junk "t") "iv3"]⟩

/-- A fully populated pre-pull world. -/
def world1 : World :=
  ⟨⟨[⟨9, .enc (.junk "old") "ivo"⟩], 10⟩,
   [("masterHash", .hash ⟨"oldpw", "oldsalt"⟩)],
   ⟨some sampleKey, some "salt1", [(9, record1)]⟩,
   ⟨some "tok", some "owner", some "repo"⟩⟩

/-- A second pre-pull world with a differently configured remote. -/
def world2 : World :=
  ⟨⟨[], 5⟩, [("githubToken", .str "oldtok")], ⟨none, none, []⟩,
   ⟨some "tokB", some "ownB", some "repB"⟩⟩

/-- The id/ciphertext/iv triples of `pullSnap`. -/
def pws1 : List (Nat × Ciphertext × String) :=
  [(1, .enc record1 ⟨"newpw", "nes"⟩ "iv1", "iv1"),
   (2, .junk "r2", "iv2"),
   (3, .junk "r3", "iv3")]

/-- A remote version-1 snapshot with credentials and three encrypted rows. -/
def pullSnap : Snapshot :=
  ⟨1, some ⟨"newpw", "newsalt"⟩, some "nms", some "nes",
   pws1.map (fun t => ImportEntry.encrypted (some t.1) t.2.1 t.2.2)⟩

/-! ## Supporting lemmas -/

/-- The in-memory list built by the load loop is exactly one record per
decryptable row, in store order. -/
theorem loadScan_fst (key : Key) (l : List StoredRecord) :
    (App.loadScan key l).1 = l.filterMap (fun r =>
      match decryptStored key r.payload with
      | .ok d => some (r.id, d)
      | .error _ => none) := by
  induction l with
  | nil => rfl
  | cons r rest ih =>
      cases hd : decryptStored key r.payload <;>
        simp [App.loadScan, hd, ih]

/-- The quarantine list built by the load loop is exactly the ids of the rows
that fail to decrypt. -/
theorem loadScan_snd (key : Key) (l : List StoredRecord) :
    (App.loadScan key l).2 = (l.filter (fun r => !(decOk key r))).map (·.id) := by
  induction l with
  | nil => rfl
  | cons r rest ih =>
      cases hd : decryptStored key r.payload <;>
        simp [App.loadScan, hd, ih, decOk]

/-- Folding `Storage.deletePassword` over a list of ids removes exactly the
rows whose id is in that list. -/
theorem deleteFold_records (D : List Nat) : ∀ p : PasswordStore,
    (D.foldl Storage.deletePassword p).records
      = p.records.filter (fun r => !(D.contains r.id)) := by
  induction D with
  | nil => intro p; simp
  | cons d D ih =>
      intro p
      rw [List.foldl_cons, ih]
      show ((Storage.deletePassword p d).records).filter _ = _
      rw [Storage.deletePassword]
      simp only [List.filter_filter]
      refine List.filter_congr ?_
      intro r _
      by_cases h1 : r.id = d <;> by_cases h2 : r.id ∈ D <;> simp [h1, h2, bne]

/-- When the store's keys are unique, the quarantine deletions of
`App.loadPasswords` leave exactly the decryptable rows. -/
theorem loadPasswords_store_eq (key : Key) (p : PasswordStore)
    (hnodup : (Storage.storeIds p).Nodup) :
    (App.loadPasswords key p).store.records = p.records.filter (decOk key) := by
  show ((App.loadScan key p.records).2.foldl Storage.deletePassword p).records = _
  rw [deleteFold_records, loadScan_snd]
  refine List.filter_congr ?_
  intro r hr
  have hiff : r.id ∈ (p.records.filter (fun x => !(decOk key x))).map (·.id)
      ↔ decOk key r = false := by
    constructor
    · intro hmem
      obtain ⟨r2, hr2, hid⟩ := List.mem_map.mp hmem
      obtain ⟨hr2mem, hr2f⟩ := List.mem_filter.mp hr2
      have heq : r2 = r := List.inj_on_of_nodup_map hnodup hr2mem hr hid
      subst heq
      simpa using hr2f
    · intro hfalse
      exact List.mem_map.mpr ⟨r, List.mem_filter.mpr ⟨hr, by rw [hfalse]; rfl⟩, rfl⟩
  simp only [List.contains, List.elem_eq_mem]
  cases hok : decOk key r
  · rw [decide_eq_true (hiff.mpr hok)]
    rfl
  · rw [decide_eq_false (fun hmem => by
      have hcontra := hiff.mp hmem
      rw [hok] at hcontra
      exact Bool.noConfusion hcontra)]
    rfl

/-- Appending one fresh row with a large enough generator value preserves the
store invariant. -/
theorem WF_append (p : PasswordStore) (i : Nat) (pay : StoredPayload) (n2 : Nat)
    (hfresh : i ∉ Storage.storeIds p) (hbig : p.nextId ≤ n2) (hin : i < n2)
    (hwf : WFStore p) :
    WFStore ⟨p.records ++ [⟨i, pay⟩], n2⟩ := by
  obtain ⟨hnodup, hbound⟩ := hwf
  constructor
  · show ((p.records ++ [(⟨i, pay⟩ : StoredRecord)]).map (fun r => r.id)).Nodup
    rw [List.map_append, List.nodup_append]
    refine ⟨hnodup, by simp, ?_⟩
    intro x hx hx2
    simp only [List.map_cons, List.map_nil, List.mem_singleton] at hx2
    subst hx2
    exact hfresh hx
  · intro r hr
    replace hr : r ∈ p.records ++ [⟨i, pay⟩] := hr
    show r.id < n2
    rw [List.mem_append] at hr
    cases hr with
    | inl h2 => exact lt_of_lt_of_le (hbound r h2) hbig
    | inr h2 =>
        rw [List.mem_singleton] at h2
        subst h2
        exact hin

/-- A successful `Storage.addPassword` appends exactly one row, honors an
explicit key, and preserves the store invariant. -/
theorem addPassword_ok_spec (p : PasswordStore) (id? : Option Nat) (pay : StoredPayload)
    (p2 : PasswordStore) (i : Nat)
    (h : Storage.addPassword p id? pay = .ok (p2, i)) :
    p2.records = p.records ++ [⟨i, pay⟩] ∧ (∀ j, id? = some j → i = j) ∧
      (WFStore p → WFStore p2) := by
  cases id? with
  | some j =>
      by_cases hmem : j ∈ Storage.storeIds p
      · rw [Storage.addPassword, if_pos hmem] at h
        exact Except.noConfusion h
      · rw [Storage.addPassword, if_neg hmem] at h
        injection h with h1
        injection h1 with hp2 hi
        subst hi
        subst hp2
        refine ⟨rfl, fun j2 hj2 => by injection hj2, fun hwf => ?_⟩
        exact WF_append p j pay (max p.nextId (j + 1)) hmem (le_max_left _ _)
          (lt_of_lt_of_le (Nat.lt_succ_self j) (le_max_right _ _)) hwf
  | none =>
      rw [Storage.addPassword] at h
      injection h with h1
      injection h1 with hp2 hi
      subst hi
      subst hp2
      refine ⟨rfl, fun j2 hj2 => Option.noConfusion hj2, fun hwf => ?_⟩
      refine WF_append p p.nextId pay (p.nextId + 1) ?_ (Nat.le_succ _)
        (Nat.lt_succ_self _) hwf
      intro hx
      obtain ⟨r, hrm, hrid⟩ := List.mem_map.mp hx
      have h2 : r.id = p.nextId := hrid
      have h3 := hwf.2 r hrm
      omega

/-- The keys of a store extended by one row. -/
theorem storeIds_append_one (p : PasswordStore) (i : Nat) (pay : StoredPayload) (n : Nat) :
    Storage.storeIds ⟨p.records ++ [⟨i, pay⟩], n⟩ = Storage.storeIds p ++ [i] := by
  simp [Storage.storeIds]

/-- A successful run of the import loop appends a batch matching the entries
and preserves the store invariant. -/
theorem importLoop_ok_spec (key : Key) (ivSup : Nat → String) :
    ∀ (entries : List ImportEntry) (idx : Nat) (p p2 : PasswordStore),
    App.importLoop key ivSup entries idx p = (p2, .ok ()) →
    ∃ new, p2.records = p.records ++ new ∧ ImportMatches key entries new ∧
      (WFStore p → WFStore p2) := by
  intro entries
  induction entries with
  | nil =>
      intro idx p p2 h
      injection h with h1 h2
      subst h1
      exact ⟨[], by simp, ImportMatches.nil, fun hwf => hwf⟩
  | cons e rest ih =>
      intro idx p p2 h
      cases e with
      | encrypted id? ct iv =>
          cases hadd : Storage.addPassword p id? (.enc ct iv) with
          | error err =>
              simp only [App.importLoop, hadd, Except.map_error] at h
              injection h with h1 h2
              exact Except.noConfusion h2
          | ok pr =>
              obtain ⟨padd, i⟩ := pr
              simp only [App.importLoop, hadd, Except.map_ok] at h
              obtain ⟨hrecadd, hid, hwfadd⟩ :=
                addPassword_ok_spec p id? (.enc ct iv) padd i hadd
              obtain ⟨new2, hrec, hmatch, hwf2⟩ := ih (idx + 1) padd p2 h
              cases id? with
              | some i0 =>
                  have hi : i = i0 := hid i0 rfl
                  subst hi
                  refine ⟨⟨i, .enc ct iv⟩ :: new2, ?_,
                    ImportMatches.encSome i ct iv rest new2 hmatch,
                    fun hwf => hwf2 (hwfadd hwf)⟩
                  rw [hrec, hrecadd, List.append_assoc, List.singleton_append]
              | none =>
                  refine ⟨⟨i, .enc ct iv⟩ :: new2, ?_,
                    ImportMatches.encNone i ct iv rest new2 hmatch,
                    fun hwf => hwf2 (hwfadd hwf)⟩
                  rw [hrec, hrecadd, List.append_assoc, List.singleton_append]
      | plain sv em un pw mo =>
          cases hadd : Storage.addPassword p none
              (.enc (Ciphertext.enc ⟨sv, em, un, pw, mo⟩ key (ivSup idx)) (ivSup idx)) with
          | error err =>
              simp only [App.importLoop, CryptoUtils.encrypt, hadd, Except.map_error] at h
              injection h with h1 h2
              exact Except.noConfusion h2
          | ok pr =>
              obtain ⟨padd, i⟩ := pr
              simp only [App.importLoop, CryptoUtils.encrypt, hadd, Except.map_ok] at h
              obtain ⟨hrecadd, _, hwfadd⟩ :=
                addPassword_ok_spec p none _ padd i hadd
              obtain ⟨new2, hrec, hmatch, hwf2⟩ := ih (idx + 1) padd p2 h
              refine ⟨⟨i, .enc (Ciphertext.enc ⟨sv, em, un, pw, mo⟩ key (ivSup idx))
                  (ivSup idx)⟩ :: new2, ?_,
                ImportMatches.plain i sv em un pw mo (ivSup idx) rest new2 hmatch,
                fun hwf => hwf2 (hwfadd hwf)⟩
              rw [hrec, hrecadd, List.append_assoc, List.singleton_append]

/-- Running the import loop on a batch of fresh explicit-id encrypted entries
followed by an entry whose id already exists in the store fails with the
ConstraintError at that entry, keeping exactly the earlier rows. -/
theorem importLoop_constraint (key : Key) (ivSup : Nat → String) (cid : Nat)
    (ct : Ciphertext) (iv : String) (rest : List ImportEntry) :
    ∀ (pre : List (Nat × Ciphertext × String)) (idx : Nat) (p : PasswordStore),
    (pre.map (·.1)).Nodup →
    (∀ t ∈ pre, t.1 ∉ Storage.storeIds p) →
    cid ∈ Storage.storeIds p →
    ∃ p2, App.importLoop key ivSup
        (pre.map (fun t => ImportEntry.encrypted (some t.1) t.2.1 t.2.2)
          ++ ImportEntry.encrypted (some cid) ct iv :: rest) idx p
      = (p2, .error .constraintError) ∧
      p2.records = p.records
        ++ pre.map (fun t => ⟨t.1, StoredPayload.enc t.2.1 t.2.2⟩) := by
  intro pre
  induction pre with
  | nil =>
      intro idx p _ _ hdup
      refine ⟨p, ?_, by simp⟩
      have hadd : Storage.addPassword p (some cid) (.enc ct iv) = .error .constraintError := by
        rw [Storage.addPassword, if_pos hdup]
      simp only [List.map_nil, List.nil_append, App.importLoop, hadd]
      rfl
  | cons t pre ih =>
      intro idx p hnodup hfresh hdup
      have hfresh0 : t.1 ∉ Storage.storeIds p := hfresh t (List.mem_cons_self t _)
      have hadd : Storage.addPassword p (some t.1) (.enc t.2.1 t.2.2)
          = .ok (⟨p.records ++ [⟨t.1, .enc t.2.1 t.2.2⟩], max p.nextId (t.1 + 1)⟩, t.1) := by
        rw [Storage.addPassword, if_neg hfresh0]
      obtain ⟨p2, heq, hrec⟩ := ih (idx + 1)
        ⟨p.records ++ [⟨t.1, .enc t.2.1 t.2.2⟩], max p.nextId (t.1 + 1)⟩
        (by
          rw [List.map_cons] at hnodup
          exact hnodup.of_cons)
        (by
          intro t2 ht2
          rw [storeIds_append_one, List.mem_append, List.mem_singleton]
          rintro (h2 | h2)
          · exact hfresh t2 (List.mem_cons_of_mem t ht2) h2
          · rw [List.map_cons] at hnodup
            exact (List.nodup_cons.mp hnodup).1 (h2 ▸ List.mem_map_of_mem (·.1) ht2))
        (by
          rw [storeIds_append_one, List.mem_append]
          exact Or.inl hdup)
      refine ⟨p2, ?_, ?_⟩
      · rw [List.map_cons, List.cons_append]
        simp only [App.importLoop, hadd, Except.map_ok]
        exact heq
      · rw [hrec]
        simp [List.append_assoc]

/-- Running the as-is add loop (pull / storage import) on a batch of fresh
explicit-id encrypted entries succeeds and appends exactly those rows. -/
theorem addAllEntries_triples (pws : List (Nat × Ciphertext × String)) :
    ∀ p : PasswordStore,
    (pws.map (·.1)).Nodup →
    (∀ t ∈ pws, t.1 ∉ Storage.storeIds p) →
    ∃ p2, addAllEntries p (pws.map (fun t => ImportEntry.encrypted (some t.1) t.2.1 t.2.2))
        = (p2, .ok ()) ∧
      p2.records = p.records
        ++ pws.map (fun t => ⟨t.1, StoredPayload.enc t.2.1 t.2.2⟩) := by
  induction pws with
  | nil =>
      intro p _ _
      exact ⟨p, rfl, by simp⟩
  | cons t pws ih =>
      intro p hnodup hfresh
      have hfresh0 : t.1 ∉ Storage.storeIds p := hfresh t (List.mem_cons_self t _)
      have hadd : Storage.addPassword p (some t.1) (.enc t.2.1 t.2.2)
          = .ok (⟨p.records ++ [⟨t.1, .enc t.2.1 t.2.2⟩], max p.nextId (t.1 + 1)⟩, t.1) := by
        rw [Storage.addPassword, if_neg hfresh0]
      obtain ⟨p2, heq, hrec⟩ := ih
        ⟨p.records ++ [⟨t.1, .enc t.2.1 t.2.2⟩], max p.nextId (t.1 + 1)⟩
        (by
          rw [List.map_cons] at hnodup
          exact hnodup.of_cons)
        (by
          intro t2 ht2
          rw [storeIds_append_one, List.mem_append, List.mem_singleton]
          rintro (h2 | h2)
          · exact hfresh t2 (List.mem_cons_of_mem t ht2) h2
          · rw [List.map_cons] at hnodup
            exact (List.nodup_cons.mp hnodup).1 (h2 ▸ List.mem_map_of_mem (·.1) ht2))
      refine ⟨p2, ?_, ?_⟩
      · rw [List.map_cons]
        simp only [addAllEntries, addEntryAsIs, hadd, Except.map_ok]
        exact heq
      · rw [hrec]
        simp [List.append_assoc]

/-- Full characterization of a successful pull of a complete version-1
snapshot of explicit-id encrypted entries: both stores are replaced — the
settings store ends up holding exactly the snapshot's credentials followed
by the re-written GitHub config — and the session key and salt are
discarded while the in-memory GitHub config and decrypted list survive. -/
theorem handleSyncPull_ok_spec (w : World) (data : Snapshot) (h : HashV)
    (ms es : String) (pws : List (Nat × Ciphertext × String))
    (hv : data.version = 1)
    (hmh : data.masterHash = some h) (hms : data.masterSalt = some ms)
    (hes : data.encryptionSalt = some es)
    (hpw : data.passwords = pws.map (fun t => ImportEntry.encrypted (some t.1) t.2.1 t.2.2))
    (hnodup : (pws.map (·.1)).Nodup) :
    ∃ p2, App.handleSyncPull w (some data) =
        ({ pstore := p2,
           sstore := [("masterHash", .hash h), ("masterSalt", .str ms),
                      ("encryptionSalt", .str es), ("githubToken", optVal w.gh.token),
                      ("githubRepoOwner", optVal w.gh.repoOwner),
                      ("githubRepoName", optVal w.gh.repoName)],
           app := ⟨none, none, w.app.passwords⟩,
           gh := ⟨w.gh.token, w.gh.repoOwner, w.gh.repoName⟩ }, .ok ()) ∧
      p2.records = pws.map (fun t => ⟨t.1, StoredPayload.enc t.2.1 t.2.2⟩) := by
  obtain ⟨p2, hloop, hrec⟩ := addAllEntries_triples pws
    ⟨[], w.pstore.nextId⟩ hnodup (by intro t _ hc; simp [Storage.storeIds] at hc)
  refine ⟨p2, ?_, by rw [hrec]; simp⟩
  simp only [App.handleSyncPull]
  rw [if_neg (by simp [hv])]
  simp only [hmh, hms, hes, hpw, Storage.clearAll]
  rw [hloop]
  simp [Storage.saveSetting, GitHubSync.saveConfig]

/-! ## Claims -/

/-- C2: for every record and key, decrypting the `{ciphertext, iv}` pair
produced by `CryptoUtils.encrypt` with the same key returns a record equal
to the original (round-trip). -/
theorem encrypt_decrypt_roundtrip (r : Record) (k : Key) (iv : String) :
    CryptoUtils.decrypt (CryptoUtils.encrypt r k iv).ciphertext
      (CryptoUtils.encrypt r k iv).iv k = .ok r := by
  simp [CryptoUtils.encrypt, CryptoUtils.decrypt]

/-- C3: decrypting an encryption of record `r` under key `k` with any other
key `k2 ≠ k` fails with the per-record decryption failure the caller can
catch; it never silently returns data as if it were a valid record. -/
theorem decrypt_wrong_key_fails (r : Record) (k k2 : Key) (iv : String) (h : k2 ≠ k) :
    CryptoUtils.decrypt (CryptoUtils.encrypt r k iv).ciphertext
      (CryptoUtils.encrypt r k iv).iv k2 = .error .decryptionFailure := by
  simp [CryptoUtils.encrypt, CryptoUtils.decrypt]
  intro hk
  exact absurd hk.symm h

/-- Concrete instantiation of `decrypt_wrong_key_fails`. -/
theorem decrypt_wrong_key_fails_witness :
    CryptoUtils.deriveKey "otherpass" "salt1" ≠ sampleKey ∧
    CryptoUtils.decrypt (CryptoUtils.encrypt record1 sampleKey "iv0").ciphertext
      (CryptoUtils.encrypt record1 sampleKey "iv0").iv
      (CryptoUtils.deriveKey "otherpass" "salt1") = .error .decryptionFailure :=
  ⟨by decide,
   decrypt_wrong_key_fails record1 sampleKey
     (CryptoUtils.deriveKey "otherpass" "salt1") "iv0" (by decide)⟩

/-- C8: verifying a passphrase against the hash/salt pair that
`hashMasterPassword` produced for it succeeds, and verifying any different
passphrase against the same stored hash and salt fails (the hash is
recomputed deterministically and compared for whole-value equality). -/
theorem verifyMasterPassword_correct (p p2 s : String) (h : p2 ≠ p) :
    CryptoUtils.verifyMasterPassword p (CryptoUtils.hashMasterPassword p s).1
      (CryptoUtils.hashMasterPassword p s).2 = true ∧
    CryptoUtils.verifyMasterPassword p2 (CryptoUtils.hashMasterPassword p s).1
      (CryptoUtils.hashMasterPassword p s).2 = false := by
  constructor
  · simp [CryptoUtils.verifyMasterPassword, CryptoUtils.hashMasterPassword]
  · show (CryptoUtils.pbkdf2 p2 s == CryptoUtils.pbkdf2 p s) = false
    exact beq_eq_false_iff_ne.mpr (fun hEq => h (congrArg HashV.password hEq))

/-- Concrete instantiation of `verifyMasterPassword_correct`. -/
theorem verifyMasterPassword_correct_witness :
    CryptoUtils.verifyMasterPassword "correcthorse123"
      (CryptoUtils.hashMasterPassword "correcthorse123" "saltA").1
      (CryptoUtils.hashMasterPassword "correcthorse123" "saltA").2 = true ∧
    CryptoUtils.verifyMasterPassword "wrongpass456"
      (CryptoUtils.hashMasterPassword "correcthorse123" "saltA").1
      (CryptoUtils.hashMasterPassword "correcthorse123" "saltA").2 = false :=
  verifyMasterPassword_correct "correcthorse123" "wrongpass456" "saltA" (by decide)

/-- C1: for every store whose keys are unique (an IndexedDB invariant: `id`
is the store's keyPath), `App.loadPasswords` leaves the in-memory list
holding exactly the decryptable rows' decrypted records, leaves the store
holding exactly the decryptable rows (deleting exactly the failing ones),
and reports the number of failing rows as the quarantine count; a decryption
failure on one row never aborts processing of the rest (the characterization
covers rows after a failing one). -/
theorem loadPasswords_quarantine_spec (key : Key) (p : PasswordStore)
    (hnodup : (Storage.storeIds p).Nodup) :
    (App.loadPasswords key p).passwords
        = p.records.filterMap (fun r =>
            match decryptStored key r.payload with
            | .ok d => some (r.id, d)
            | .error _ => none) ∧
    (App.loadPasswords key p).store.records = p.records.filter (decOk key) ∧
    (App.loadPasswords key p).quarantined
        = (p.records.filter (fun r => !(decOk key r))).length := by
  refine ⟨loadScan_fst key p.records, loadPasswords_store_eq key p hnodup, ?_⟩
  show (App.loadScan key p.records).2.length = _
  rw [loadScan_snd]
  simp

/-- Concrete instantiation of `loadPasswords_quarantine_spec` on a store with
two decryptable rows and a corrupt one between them. -/
theorem loadPasswords_quarantine_spec_witness :
    (Storage.storeIds store3).Nodup ∧
    ((App.loadPasswords sampleKey store3).passwords
        = store3.records.filterMap (fun r =>
            match decryptStored sampleKey r.payload with
            | .ok d => some (r.id, d)
            | .error _ => none) ∧
      (App.loadPasswords sampleKey store3).store.records
        = store3.records.filter (decOk sampleKey) ∧
      (App.loadPasswords sampleKey store3).quarantined
        = (store3.records.filter (fun r => !(decOk sampleKey r))).length) :=
  ⟨by decide, loadPasswords_quarantine_spec sampleKey store3 (by decide)⟩

/-- C5: a snapshot whose version is not 1 is rejected as unsupported before
anything else is examined, by both `App.importData` and `Storage.importData`,
leaving the password store, the settings store and the session unmodified —
for every session state and regardless of the snapshot's other fields. -/
theorem importData_rejects_unsupported_version (a : AppState) (p : PasswordStore)
    (s : SettingsStore) (snap : Snapshot) (ivSup : Nat → String)
    (h : snap.version ≠ 1) :
    App.importData a p snap ivSup = (a, p, .error .unsupportedVersion) ∧
    Storage.importData p s snap = (p, s, .error .unsupportedVersion) := by
  constructor
  · rw [App.importData, if_pos h]
  · rw [Storage.importData, if_pos h]

/-- Concrete instantiation of `importData_rejects_unsupported_version` on a
version-2 snapshot. -/
theorem importData_rejects_unsupported_version_witness :
    snapV2.version ≠ 1 ∧
    (App.importData ⟨some sampleKey, some "salt1", []⟩ ⟨[], 1⟩ snapV2 (fun _ => "iv")
        = (⟨some sampleKey, some "salt1", []⟩, ⟨[], 1⟩, .error .unsupportedVersion) ∧
      Storage.importData ⟨[], 1⟩ [("masterHash", .hash ⟨"a", "b"⟩)] snapV2
        = (⟨[], 1⟩, [("masterHash", .hash ⟨"a", "b"⟩)], .error .unsupportedVersion)) :=
  ⟨by decide,
   importData_rejects_unsupported_version ⟨some sampleKey, some "salt1", []⟩ ⟨[], 1⟩
     [("masterHash", .hash ⟨"a", "b"⟩)] snapV2 (fun _ => "iv") (by decide)⟩

/-- C6 counterexample: with no session key (LoggedOut), importing a
version-1 snapshot whose single entry already carries ciphertext+iv is
rejected with the login error instead of succeeding — `App.importData`
checks `this.encryptionKey` unconditionally, before looking at any entry,
so an all-encrypted import does not succeed regardless of session state. -/
theorem import_locked_all_encrypted_cex :
    App.importData ⟨none, none, []⟩ ⟨[], 1⟩
      ⟨1, none, none, none, [.encrypted (some 7) (.junk "c") "iv"]⟩ (fun _ => "iv")
      = (⟨none, none, []⟩, ⟨[], 1⟩, .error .notLoggedIn) := by
  rfl

/-- C6 (amended): import of a version-1 snapshot requires an Unlocked
session unconditionally — with no derived key it is rejected even when every
entry already carries ciphertext+iv — and when a key is present and the
batch persists successfully, every plaintext entry is encrypted with the
session key before persisting, every ciphertext+iv entry is written as-is,
and the quarantine pass that import triggers afterwards leaves exactly the
rows decryptable under the session key. -/
theorem importData_session_requirement_and_persistence :
    (∀ (a : AppState) (p : PasswordStore) (snap : Snapshot) (ivSup : Nat → String),
      a.encryptionKey = none → snap.version = 1 →
      App.importData a p snap ivSup = (a, p, .error .notLoggedIn)) ∧
    (∀ (a : AppState) (p : PasswordStore) (snap : Snapshot) (ivSup : Nat → String)
        (key : Key) (a2 : AppState) (p2 : PasswordStore) (n : Nat),
      a.encryptionKey = some key → WFStore p →
      App.importData a p snap ivSup = (a2, p2, .ok n) →
      ∃ new, ImportMatches key snap.passwords new ∧
        p2.records = (p.records ++ new).filter (decOk key)) := by
  constructor
  · intro a p snap ivSup hkey hv
    rw [App.importData, if_neg (by simp [hv]), hkey]
  · intro a p snap ivSup key a2 p2 n hkey hwf h
    rw [App.importData] at h
    by_cases hv : snap.version ≠ 1
    · rw [if_pos hv] at h
      injection h with h1 h2
      injection h2 with h3 h4
      exact Except.noConfusion h4
    · rw [if_neg hv, hkey] at h
      cases hloop : App.importLoop key ivSup snap.passwords 0 p with
      | mk pl r =>
          cases r with
          | ok u =>
              cases u
              obtain ⟨new, hrec, hmatch, hwfp⟩ :=
                importLoop_ok_spec key ivSup snap.passwords 0 p pl hloop
              refine ⟨new, hmatch, ?_⟩
              simp only [hloop] at h
              injection h with h1 h2
              injection h2 with h3 h4
              rw [← h3, loadPasswords_store_eq key pl (hwfp hwf).1, hrec]
          | error e =>
              simp only [hloop] at h
              injection h with h1 h2
              injection h2 with h3 h4
              exact Except.noConfusion h4

/-- Concrete instantiation of both parts of
`importData_session_requirement_and_persistence`: a locked all-encrypted
batch is rejected, and an unlocked import of one plaintext plus one
pre-encrypted entry persists both as ciphertext. -/
theorem importData_session_requirement_and_persistence_witness :
    App.importData ⟨none, none, []⟩ ⟨[], 5⟩ snapEncOnly (fun _ => "iv")
        = (⟨none, none, []⟩, ⟨[], 5⟩, .error .notLoggedIn) ∧
    WFStore ⟨[], 1⟩ ∧
    (∃ new, ImportMatches sampleKey snapMix.passwords new ∧
      (PasswordStore.mk
        [⟨1, .enc (.enc ⟨"Svc", "e", "u", "pw1", "m"⟩ sampleKey "iv0") "iv0"⟩,
         ⟨7, .enc (.enc record2 sampleKey "iv7") "iv7"⟩] 8).records
        = ((⟨[], 1⟩ : PasswordStore).records ++ new).filter (decOk sampleKey)) :=
  ⟨importData_session_requirement_and_persistence.1 ⟨none, none, []⟩ ⟨[], 5⟩
      snapEncOnly (fun _ => "iv") rfl rfl,
   ⟨by decide, by simp⟩,
   importData_session_requirement_and_persistence.2 ⟨some sampleKey, some "salt1", []⟩
      ⟨[], 1⟩ snapMix (fun _ => "iv0") sampleKey
      ⟨some sampleKey, some "salt1", [(1, ⟨"Svc", "e", "u", "pw1", "m"⟩), (7, record2)]⟩
      (PasswordStore.mk
        [⟨1, .enc (.enc ⟨"Svc", "e", "u", "pw1", "m"⟩ sampleKey "iv0") "iv0"⟩,
         ⟨7, .enc (.enc record2 sampleKey "iv7") "iv7"⟩] 8) 2
      rfl ⟨by decide, by simp⟩ rfl⟩

/-- C10: import persists rows with the store's `add` operation, so a
version-1 batch of fresh-id encrypted entries followed by an entry whose id
already exists in the passwords store fails with the ConstraintError at that
entry; the entries before it remain persisted and the entries after it are
never persisted (the batch aborts partway with partial side effects, and the
session state is left untouched). -/
theorem importData_duplicate_id_aborts (a : AppState) (p : PasswordStore) (snap : Snapshot)
    (ivSup : Nat → String) (key : Key) (pre : List (Nat × Ciphertext × String)) (cid : Nat)
    (ct : Ciphertext) (iv : String) (rest : List ImportEntry)
    (hkey : a.encryptionKey = some key) (hv : snap.version = 1)
    (hpw : snap.passwords = pre.map (fun t => ImportEntry.encrypted (some t.1) t.2.1 t.2.2)
      ++ ImportEntry.encrypted (some cid) ct iv :: rest)
    (hnodup : (pre.map (·.1)).Nodup)
    (hfresh : ∀ t ∈ pre, t.1 ∉ Storage.storeIds p)
    (hdup : cid ∈ Storage.storeIds p) :
    ∃ p2, App.importData a p snap ivSup = (a, p2, .error (.db .constraintError)) ∧
      p2.records = p.records ++ pre.map (fun t => ⟨t.1, StoredPayload.enc t.2.1 t.2.2⟩) := by
  obtain ⟨p2, hloop, hrec⟩ :=
    importLoop_constraint key ivSup cid ct iv rest pre 0 p hnodup hfresh hdup
  refine ⟨p2, ?_, hrec⟩
  rw [App.importData, if_neg (by simp [hv]), hkey, hpw]
  simp only [hloop]

/-- Concrete instantiation of `importData_duplicate_id_aborts`: the second
of three imported entries collides with the only existing row. -/
theorem importData_duplicate_id_aborts_witness :
    (∀ t ∈ [((2 : Nat), Ciphertext.enc record1 sampleKey "iv2", "iv2")],
      t.1 ∉ Storage.storeIds dupStore) ∧
    (1 : Nat) ∈ Storage.storeIds dupStore ∧
    (∃ p2, App.importData ⟨some sampleKey, none, []⟩ dupStore snapDup (fun _ => "x")
        = (⟨some sampleKey, none, []⟩, p2, .error (.db .constraintError)) ∧
      p2.records = dupStore.records
        ++ [((2 : Nat), Ciphertext.enc record1 sampleKey "iv2", "iv2")].map
            (fun t => ⟨t.1, StoredPayload.enc t.2.1 t.2.2⟩)) :=
  ⟨by decide, by decide,
   importData_duplicate_id_aborts ⟨some sampleKey, none, []⟩ dupStore snapDup
     (fun _ => "x") sampleKey [(2, .enc record1 sampleKey "iv2", "iv2")] 1
     (.enc record2 sampleKey "iv1") "iv1" [.encrypted (some 3) (.junk "t") "iv3"]
     rfl rfl rfl (by decide) (by decide) (by decide)⟩

/-- C4: a successful pull of a version-1 remote snapshot (with credential
fields present and uniquely keyed encrypted rows) clears the local vault and
stores exactly the snapshot's rows, re-saves the snapshot's master
credential settings, and forces the session back to LoggedOut: the derived
key and the encryption salt are discarded. -/
theorem handleSyncPull_replaces_vault (w : World) (data : Snapshot) (h : HashV)
    (ms es : String) (pws : List (Nat × Ciphertext × String))
    (hv : data.version = 1) (hmh : data.masterHash = some h)
    (hms : data.masterSalt = some ms) (hes : data.encryptionSalt = some es)
    (hpw : data.passwords = pws.map (fun t => ImportEntry.encrypted (some t.1) t.2.1 t.2.2))
    (hnodup : (pws.map (·.1)).Nodup) :
    ∃ w2, App.handleSyncPull w (some data) = (w2, .ok ()) ∧
      w2.pstore.records = pws.map (fun t => ⟨t.1, StoredPayload.enc t.2.1 t.2.2⟩) ∧
      Storage.getSetting w2.sstore "masterHash" = some (.hash h) ∧
      Storage.getSetting w2.sstore "masterSalt" = some (.str ms) ∧
      Storage.getSetting w2.sstore "encryptionSalt" = some (.str es) ∧
      w2.app.encryptionKey = none ∧ w2.app.encryptionSalt = none := by
  obtain ⟨p2, heq, hrec⟩ := handleSyncPull_ok_spec w data h ms es pws hv hmh hms hes hpw hnodup
  exact ⟨_, heq, hrec, rfl, rfl, rfl, rfl, rfl⟩

/-- Concrete instantiation of `handleSyncPull_replaces_vault`: pulling a
remote snapshot with three encrypted rows over a populated vault. -/
theorem handleSyncPull_replaces_vault_witness :
    pullSnap.version = 1 ∧
    (∃ w2, App.handleSyncPull world1 (some pullSnap) = (w2, .ok ()) ∧
      w2.pstore.records = pws1.map (fun t => ⟨t.1, StoredPayload.enc t.2.1 t.2.2⟩) ∧
      Storage.getSetting w2.sstore "masterHash" = some (.hash ⟨"newpw", "newsalt"⟩) ∧
      Storage.getSetting w2.sstore "masterSalt" = some (.str "nms") ∧
      Storage.getSetting w2.sstore "encryptionSalt" = some (.str "nes") ∧
      w2.app.encryptionKey = none ∧ w2.app.encryptionSalt = none) :=
  ⟨by decide,
   handleSyncPull_replaces_vault world1 pullSnap ⟨"newpw", "newsalt"⟩ "nms" "nes" pws1
     rfl rfl rfl rfl rfl (by decide)⟩

/-- C9: after a successful pull the three remote-sync configuration settings
hold their pre-pull in-memory values — the pull path writes the old local
GitHub config back into the settings store right after clearing it — while
masterHash, masterSalt and encryptionSalt take the remote snapshot's
values. -/
theorem handleSyncPull_preserves_sync_config (w : World) (data : Snapshot) (h : HashV)
    (ms es : String) (pws : List (Nat × Ciphertext × String))
    (hv : data.version = 1) (hmh : data.masterHash = some h)
    (hms : data.masterSalt = some ms) (hes : data.encryptionSalt = some es)
    (hpw : data.passwords = pws.map (fun t => ImportEntry.encrypted (some t.1) t.2.1 t.2.2))
    (hnodup : (pws.map (·.1)).Nodup) :
    ∃ w2, App.handleSyncPull w (some data) = (w2, .ok ()) ∧
      Storage.getSetting w2.sstore "githubToken" = some (optVal w.gh.token) ∧
      Storage.getSetting w2.sstore "githubRepoOwner" = some (optVal w.gh.repoOwner) ∧
      Storage.getSetting w2.sstore "githubRepoName" = some (optVal w.gh.repoName) ∧
      Storage.getSetting w2.sstore "masterHash" = some (.hash h) ∧
      Storage.getSetting w2.sstore "masterSalt" = some (.str ms) ∧
      Storage.getSetting w2.sstore "encryptionSalt" = some (.str es) := by
  obtain ⟨p2, heq, hrec⟩ := handleSyncPull_ok_spec w data h ms es pws hv hmh hms hes hpw hnodup
  exact ⟨_, heq, rfl, rfl, rfl, rfl, rfl, rfl⟩

/-- Concrete instantiation of `handleSyncPull_preserves_sync_config` on a
world whose GitHub config differs from anything in the snapshot. -/
theorem handleSyncPull_preserves_sync_config_witness :
    pullSnap.masterHash = some ⟨"newpw", "newsalt"⟩ ∧
    (∃ w2, App.handleSyncPull world2 (some pullSnap) = (w2, .ok ()) ∧
      Storage.getSetting w2.sstore "githubToken" = some (optVal world2.gh.token) ∧
      Storage.getSetting w2.sstore "githubRepoOwner" = some (optVal world2.gh.repoOwner) ∧
      Storage.getSetting w2.sstore "githubRepoName" = some (optVal world2.gh.repoName) ∧
      Storage.getSetting w2.sstore "masterHash" = some (.hash ⟨"newpw", "newsalt"⟩) ∧
      Storage.getSetting w2.sstore "masterSalt" = some (.str "nms") ∧
      Storage.getSetting w2.sstore "encryptionSalt" = some (.str "nes")) :=
  ⟨by decide,
   handleSyncPull_preserves_sync_config world2 pullSnap ⟨"newpw", "newsalt"⟩ "nms" "nes"
     pws1 rfl rfl rfl rfl rfl (by decide)⟩

/-- C7 counterexample: `GitHubSync.push` accepts no version token from its
caller and refetches the current one, so a push from a session whose
last-known token (3) is stale relative to the current remote state (token 5,
holding newer content) is not rejected: it succeeds and silently replaces
the newer remote content. -/
theorem push_stale_session_not_rejected_cex :
    (3 : Nat) ≠ 5 ∧
    GitHubSync.push ⟨some "tok", some "owner", some "repo"⟩ (some ⟨"remote-newer", 5⟩)
        "local-snapshot" = .ok (some ⟨"local-snapshot", 6⟩) := by
  exact ⟨by decide, by rfl⟩

/-- C7 (amended): `push` takes no version token from the caller; it calls
`pull` internally immediately before writing and submits the token it just
fetched, so for every configured client and every current remote state the
push succeeds and overwrites the remote with the new content
(last-writer-wins) — a stale session is never rejected; the token only
guards the window between push's own internal read and its write. -/
theorem push_refetches_current_token_and_overwrites (gh : GHState) (remote : Remote)
    (content : String) (ht : gh.token.isSome) (ho : gh.repoOwner.isSome)
    (hn : gh.repoName.isSome) :
    ∃ sha2, GitHubSync.push gh remote content = .ok (some ⟨content, sha2⟩) := by
  have h1 : gh.token.isNone = false := by
    cases htok : gh.token
    · rw [htok] at ht
      exact Bool.noConfusion ht
    · rfl
  have h2 : gh.repoOwner.isNone = false := by
    cases htok : gh.repoOwner
    · rw [htok] at ho
      exact Bool.noConfusion ho
    · rfl
  have h3 : gh.repoName.isNone = false := by
    cases htok : gh.repoName
    · rw [htok] at hn
      exact Bool.noConfusion hn
    · rfl
  cases remote with
  | none =>
      refine ⟨0, ?_⟩
      simp [GitHubSync.push, GitHubSync.pull, GitHubSync.putContents, h1, h2, h3]
  | some f =>
      refine ⟨f.sha + 1, ?_⟩
      simp [GitHubSync.push, GitHubSync.pull, GitHubSync.putContents, h1, h2, h3]

/-- Concrete instantiation of `push_refetches_current_token_and_overwrites`. -/
theorem push_refetches_current_token_and_overwrites_witness :
    (Option.some "tokB").isSome = true ∧
    (∃ sha2, GitHubSync.push ⟨some "tokB", some "ownB", some "repB"⟩
        (some ⟨"older", 41⟩) "fresh-content" = .ok (some ⟨"fresh-content", sha2⟩)) :=
  ⟨rfl,
   push_refetches_current_token_and_overwrites ⟨some "tokB", some "ownB", some "repB"⟩
     (some ⟨"older", 41⟩) "fresh-content" rfl rfl rfl⟩

end PwaSpec
